import Mathlib

/-!
Shallow embedding of `src/scuf_virtual_pad.py` (SCUF Envision Pro → virtual
Xbox-compatible controller bridge) and verification of its specification.

Python machine model used throughout:
* Python ints are unbounded, so they are `Int` (or `Nat` where the source value
  is provably non-negative, e.g. `struct.unpack("<H", ...)` results).
* Python dicts keyed by ints are association lists with first-match lookup and
  in-place update (`insertA`); Python preserves insertion order, updating an
  existing key in place and appending new keys at the end, which `insertA`
  reproduces.
* `ui.write`/`ui.syn` calls are recorded as a list of `SinkAct`s.
-/

/- Linux input event codes used by the script (values of `evdev.ecodes`). -/

def EV_KEY : Nat := 1
def EV_ABS : Nat := 3

def ABS_X : Nat := 0
def ABS_Y : Nat := 1
def ABS_Z : Nat := 2
def ABS_RX : Nat := 3
def ABS_RY : Nat := 4
def ABS_RZ : Nat := 5
def ABS_HAT0X : Nat := 16
def ABS_HAT0Y : Nat := 17

def BTN_SOUTH : Nat := 304
def BTN_EAST : Nat := 305
def BTN_C : Nat := 306
def BTN_NORTH : Nat := 307
def BTN_WEST : Nat := 308
def BTN_Z : Nat := 309
def BTN_TL : Nat := 310
def BTN_TR : Nat := 311
def BTN_TL2 : Nat := 312
def BTN_TR2 : Nat := 313
def BTN_SELECT : Nat := 314
def BTN_START : Nat := 315
def BTN_MODE : Nat := 316
def BTN_THUMBL : Nat := 317
def BTN_THUMBR : Nat := 318
def BTN_DPAD_UP : Nat := 544
def BTN_DPAD_DOWN : Nat := 545
def BTN_DPAD_LEFT : Nat := 546
def BTN_DPAD_RIGHT : Nat := 547

/- Configuration constants (source lines 24-32). -/

def LEFT_DEADZONE : Int := 3500
def LEFT_JITTER : Int := 300
def RIGHT_DEADZONE : Int := 2000
def RIGHT_JITTER : Int := 300
def L2_MAX : Nat := 1023
def R2_MAX : Nat := 1023

/-- `BUTTON_REMAP` dict (source lines 36-51), in insertion order. All keys are
distinct, so first-match lookup coincides with Python dict lookup. -/
def BUTTON_REMAP : List (Nat × Nat) :=
  [(BTN_SOUTH, BTN_SOUTH),
   (BTN_EAST, BTN_EAST),
   (BTN_NORTH, BTN_NORTH),
   (BTN_C, BTN_WEST),
   (BTN_WEST, BTN_TL),
   (BTN_Z, BTN_TR),
   (BTN_TR, BTN_START),
   (BTN_TL, BTN_SELECT),
   (BTN_MODE, BTN_MODE),
   (BTN_TL2, BTN_THUMBL),
   (BTN_TR2, BTN_THUMBR)]

/-- `VIRTUAL_BUTTONS` (source lines 53-59). -/
def VIRTUAL_BUTTONS : List Nat :=
  [BTN_SOUTH, BTN_EAST, BTN_NORTH, BTN_WEST,
   BTN_TL, BTN_TR,
   BTN_SELECT, BTN_START, BTN_MODE,
   BTN_THUMBL, BTN_THUMBR,
   BTN_DPAD_UP, BTN_DPAD_DOWN, BTN_DPAD_LEFT, BTN_DPAD_RIGHT]

/-- `parse_report6` (source lines 99-106): `None` on an empty report, a wrong
leading type byte, or length < 14; otherwise the little-endian u16 at byte
offset 9 (`struct.unpack_from("<H", report, 9)`). -/
def parse_report6 (report : List Nat) : Option Nat :=
  match report with
  | [] => none
  | b0 :: _ =>
    if b0 ≠ 0x06 then none
    else if report.length < 14 then none
    else some (report.getD 9 0 + 256 * report.getD 10 0)

/-- Python 3 `round` on a non-negative rational `num / den`: round to nearest,
ties to even.  The source computes `round((delta / 0x7FFF) * max_val)` in
binary floating point; for `max_val = 1023`, `den = 0x7FFF`, a tie
(`2*(num % den) = den`) is impossible because `2*1023*delta` is even while
`32767*(2k+1)` is odd, and the nearest a value of `delta*1023/32767` comes to a
half-integer is `1/2114`, far above the relative rounding error of a double, so
this integer model returns exactly what the Python expression returns. -/
def roundHalfEven (num den : Nat) : Nat :=
  let q := num / den
  let r := num % den
  if 2 * r < den then q
  else if 2 * r > den then q + 1
  else if q % 2 = 0 then q else q + 1

/-- `centered_u16_to_trigger` (source lines 108-115): clamp the delta above
center `0x8000` to `[0, 0x7FFF]`, then scale linearly to `[0, max_val]` with
round-to-nearest. -/
def centered_u16_to_trigger (raw_u16 : Int) (max_val : Nat) : Nat :=
  let delta0 := raw_u16 - 0x8000
  let delta1 := if delta0 < 0 then 0 else delta0
  let delta2 := if delta1 > 0x7FFF then 0x7FFF else delta1
  roundHalfEven (delta2.toNat * max_val) 0x7FFF

/- Association-list model of a Python dict keyed by ints. -/

/-- `d[k] = v` on a Python dict: update an existing key in place, else append. -/
def insertA : List (Nat × Int) → Nat → Int → List (Nat × Int)
  | [], k, v => [(k, v)]
  | (k', v') :: rest, k, v =>
    if k' = k then (k, v) :: rest else (k', v') :: insertA rest k v

/-- Deadzone threshold of the filter profile selected for `axis_code`
(source lines 119-124): the right-stick profile for output codes
`ABS_RX`/`ABS_RY`, the left-stick profile otherwise. -/
def dz_of (axis_code : Nat) : Int :=
  if axis_code = ABS_RX ∨ axis_code = ABS_RY then RIGHT_DEADZONE else LEFT_DEADZONE

/-- Jitter threshold of the filter profile selected for `axis_code`. -/
def js_of (axis_code : Nat) : Int :=
  if axis_code = ABS_RX ∨ axis_code = ABS_RY then RIGHT_JITTER else LEFT_JITTER

/-- The post-deadzone value `v = 0 if abs(signed_value) < dz else signed_value`
(source line 126). -/
def post_deadzone (axis_code : Nat) (signed_value : Int) : Int :=
  if |signed_value| < dz_of axis_code then 0 else signed_value

/-- `apply_stick_filter` (source lines 117-135).  Returns the accepted value
(or `none` for a suppressed update) together with the state dict after the
call; the Python function mutates `last` in place.  The two suppression
conditions require `prev is not None`, so with no prior entry both fail and the
value is accepted. -/
def apply_stick_filter (axis_code : Nat) (signed_value : Int)
    (last : List (Nat × Int)) : Option Int × List (Nat × Int) :=
  let v := post_deadzone axis_code signed_value
  match List.lookup axis_code last with
  | some prev =>
    if v ≠ 0 ∧ |v - prev| < js_of axis_code then (none, last)
    else if v = 0 ∧ prev = 0 then (none, last)
    else (some v, insertA last axis_code v)
  | none => (some v, insertA last axis_code v)

/- Output sink actions: `ui.write(etype, code, value)` and `ui.syn()`. -/

inductive SinkAct where
  | write (etype code : Nat) (value : Int)
  | syn
  deriving DecidableEq, Repr

/-- `last_dpad` dict (source line 163), in insertion order LEFT, RIGHT, UP,
DOWN; values are the 0/1 ints last sent for each direction button. -/
structure DpadLast where
  left : Int
  right : Int
  up : Int
  down : Int
  deriving DecidableEq, Repr

/-- The four button states derived from the current hat position
(source lines 166-171). -/
def dpad_derive (hx hy : Int) : DpadLast :=
  { left := if hx = -1 then 1 else 0
    right := if hx = 1 then 1 else 0
    up := if hy = -1 then 1 else 0
    down := if hy = 1 then 1 else 0 }

/-- `apply_dpad` (source lines 165-175): recompute the four direction-button
states from the hat position and write, in dict order, exactly the buttons
whose state changed; each written button's entry in `last_dpad` is updated, so
the state after the call is the derived state. -/
def apply_dpad (hx hy : Int) (last : DpadLast) : DpadLast × List SinkAct :=
  let d := dpad_derive hx hy
  let ws :=
    (if last.left ≠ d.left then [SinkAct.write EV_KEY BTN_DPAD_LEFT d.left] else [])
    ++ (if last.right ≠ d.right then [SinkAct.write EV_KEY BTN_DPAD_RIGHT d.right] else [])
    ++ (if last.up ≠ d.up then [SinkAct.write EV_KEY BTN_DPAD_UP d.up] else [])
    ++ (if last.down ≠ d.down then [SinkAct.write EV_KEY BTN_DPAD_DOWN d.down] else [])
  (d, ws)

/-- One `EV_KEY` event (source lines 208-211):
`out = BUTTON_REMAP.get(ev.code, ev.code)` — note the passthrough default —
then write iff `out` is a virtual button. -/
def key_step (code : Nat) (value : Int) : List SinkAct :=
  let out := (List.lookup code BUTTON_REMAP).getD code
  if out ∈ VIRTUAL_BUTTONS then [SinkAct.write EV_KEY out value] else []

/-- An input event from the evdev transport. -/
structure Ev where
  etype : Nat
  code : Nat
  value : Int
  deriving DecidableEq, Repr

/-- The mutable state of the main loop (source lines 156-163). -/
structure LoopState where
  last_stick : List (Nat × Int)
  last_l2 : Int
  last_r2 : Nat
  hat_x : Int
  hat_y : Int
  last_dpad : DpadLast
  deriving DecidableEq, Repr

/-- Initial state: empty filter dict, triggers at 0, hat at rest, all d-pad
buttons off (source lines 156-163). -/
def initState : LoopState :=
  { last_stick := []
    last_l2 := 0
    last_r2 := 0
    hat_x := 0
    hat_y := 0
    last_dpad := ⟨0, 0, 0, 0⟩ }

/-- Dispatch of a single evdev event (source lines 207-248). -/
def process_event (ev : Ev) (s : LoopState) : LoopState × List SinkAct :=
  if ev.etype = EV_KEY then
    (s, key_step ev.code ev.value)
  else if ev.etype = EV_ABS then
    if ev.code = ABS_X ∨ ev.code = ABS_Y then
      let p := apply_stick_filter ev.code ev.value s.last_stick
      ({ s with last_stick := p.2 },
       match p.1 with
       | some f => [SinkAct.write EV_ABS ev.code f]
       | none => [])
    else if ev.code = ABS_RX then
      if ev.value ≠ s.last_l2 then
        ({ s with last_l2 := ev.value }, [SinkAct.write EV_ABS ABS_Z ev.value])
      else (s, [])
    else if ev.code = ABS_Z then
      let p := apply_stick_filter ABS_RX ev.value s.last_stick
      ({ s with last_stick := p.2 },
       match p.1 with
       | some f => [SinkAct.write EV_ABS ABS_RX f]
       | none => [])
    else if ev.code = ABS_RZ then
      let p := apply_stick_filter ABS_RY ev.value s.last_stick
      ({ s with last_stick := p.2 },
       match p.1 with
       | some f => [SinkAct.write EV_ABS ABS_RY f]
       | none => [])
    else if ev.code = ABS_RY then
      (s, [])
    else if ev.code = ABS_HAT0X then
      let p := apply_dpad ev.value s.hat_y s.last_dpad
      ({ s with hat_x := ev.value, last_dpad := p.1 }, p.2)
    else if ev.code = ABS_HAT0Y then
      let p := apply_dpad s.hat_x ev.value s.last_dpad
      ({ s with hat_y := ev.value, last_dpad := p.1 }, p.2)
    else (s, [])
  else (s, [])

/-- Process the events of one evdev batch in order, concatenating writes. -/
def process_batch : List Ev → LoopState → LoopState × List SinkAct
  | [], s => (s, [])
  | ev :: rest, s =>
    let p := process_event ev s
    let q := process_batch rest p.1
    (q.1, p.2 ++ q.2)

/-- One evdev wakeup that yielded a batch (source lines 201-250): process every
event, then a single `ui.syn()`. -/
def evdev_step (evs : List Ev) (s : LoopState) : LoopState × List SinkAct :=
  let p := process_batch evs s
  (p.1, p.2 ++ [SinkAct.syn])

/-- One hidraw wakeup that yielded a report (source lines 184-199): decode,
and iff the value changed, write `ABS_RZ`, update `last_r2`, and `syn`. -/
def hidraw_step (data : List Nat) (last_r2 : Nat) : Nat × List SinkAct :=
  match parse_report6 data with
  | none => (last_r2, [])
  | some raw_rx =>
    let r2_val := centered_u16_to_trigger (raw_rx : Int) R2_MAX
    if r2_val ≠ last_r2 then
      (r2_val, [SinkAct.write EV_ABS ABS_RZ (r2_val : Int), SinkAct.syn])
    else (last_r2, [])

/-- Feed a sequence of (hat_x, hat_y) updates through the D-Pad Synthesizer,
accumulating sink writes. -/
def run_hats : List (Int × Int) → DpadLast → DpadLast × List SinkAct
  | [], last => (last, [])
  | (hx, hy) :: rest, last =>
    let p := apply_dpad hx hy last
    let q := run_hats rest p.1
    (q.1, p.2 ++ q.2)

/-- Every `EV_ABS` write targets a declared analog output channel within its
declared range: stick axes in [-32768, 32767], trigger axes in [0, 1023]; in
particular no hat-axis write. Writes of other event types are unconstrained. -/
def abs_write_ok : SinkAct → Prop
  | SinkAct.write t c v =>
    t = EV_ABS →
      ((c = ABS_X ∨ c = ABS_Y ∨ c = ABS_RX ∨ c = ABS_RY) ∧ -32768 ≤ v ∧ v ≤ 32767)
      ∨ ((c = ABS_Z ∨ c = ABS_RZ) ∧ 0 ≤ v ∧ v ≤ 1023)
  | SinkAct.syn => True

/-- Input events within the source device's declared ranges: stick channels
(`ABS_X`/`ABS_Y`/`ABS_Z`/`ABS_RZ`) are signed 16-bit, the left-trigger channel
`ABS_RX` arrives already scaled to [0, 1023]. -/
def in_range_ev (ev : Ev) : Prop :=
  ev.etype = EV_ABS →
    ((ev.code = ABS_X ∨ ev.code = ABS_Y ∨ ev.code = ABS_Z ∨ ev.code = ABS_RZ) →
      -32768 ≤ ev.value ∧ ev.value ≤ 32767)
    ∧ (ev.code = ABS_RX → 0 ≤ ev.value ∧ ev.value ≤ 1023)

/- ------------------------------------------------------------------ -/
/- Helper lemmas                                                       -/
/- ------------------------------------------------------------------ -/

theorem mem_ite_singleton {α : Type} {c : Prop} [Decidable c] (x w : α) :
    (x ∈ if c then [w] else ([] : List α)) ↔ c ∧ x = w := by
  split_ifs with h <;> simp [h]

theorem lookup_insertA (m : List (Nat × Int)) (k : Nat) (v : Int) :
    List.lookup k (insertA m k v) = some v := by
  induction m with
  | nil => simp [insertA, List.lookup]
  | cons hd tl ih =>
    obtain ⟨k', v'⟩ := hd
    by_cases h : k' = k
    · simp [insertA, h, List.lookup]
    · have hbk : (k == k') = false := beq_eq_false_iff_ne.mpr (Ne.symm h)
      simp [insertA, h, List.lookup, ih, hbk]

theorem js_of_pos (axis : Nat) : 0 < js_of axis := by
  unfold js_of RIGHT_JITTER LEFT_JITTER
  split_ifs <;> norm_num

/-- Case analysis of `apply_stick_filter`, shared by several claims. -/
theorem stick_filter_cases (axis : Nat) (raw : Int) (st : List (Nat × Int)) :
    (∀ prev, List.lookup axis st = some prev →
      ((post_deadzone axis raw ≠ 0 ∧ |post_deadzone axis raw - prev| < js_of axis) →
        apply_stick_filter axis raw st = (none, st))
      ∧ ((post_deadzone axis raw = 0 ∧ prev = 0) →
        apply_stick_filter axis raw st = (none, st))
      ∧ ((¬(post_deadzone axis raw ≠ 0 ∧ |post_deadzone axis raw - prev| < js_of axis)
          ∧ ¬(post_deadzone axis raw = 0 ∧ prev = 0)) →
        apply_stick_filter axis raw st
          = (some (post_deadzone axis raw), insertA st axis (post_deadzone axis raw))))
    ∧ (List.lookup axis st = none →
      apply_stick_filter axis raw st
        = (some (post_deadzone axis raw), insertA st axis (post_deadzone axis raw))) := by
  constructor
  · intro prev hp
    refine ⟨fun hc => ?_, fun hc => ?_, fun hc => ?_⟩
    · simp only [apply_stick_filter, hp]
      rw [if_pos hc]
    · simp only [apply_stick_filter, hp]
      rw [if_neg (fun hcc => hcc.1 hc.1), if_pos hc]
    · simp only [apply_stick_filter, hp]
      rw [if_neg hc.1, if_neg hc.2]
  · intro hp
    simp [apply_stick_filter, hp]

/-- C3: the Axis Filter applies the deadzone first (magnitudes below the
profile's threshold become exactly zero), suppresses nonzero values within the
jitter threshold of the previous accepted value, suppresses zero when the
previous accepted value was zero, and otherwise stores and returns the
post-deadzone value. -/
theorem apply_stick_filter_spec (axis : Nat) (raw : Int) (st : List (Nat × Int)) :
    ((|raw| < dz_of axis → post_deadzone axis raw = 0)
      ∧ (¬ |raw| < dz_of axis → post_deadzone axis raw = raw))
    ∧ (∀ prev, List.lookup axis st = some prev →
      ((post_deadzone axis raw ≠ 0 ∧ |post_deadzone axis raw - prev| < js_of axis) →
        apply_stick_filter axis raw st = (none, st))
      ∧ ((post_deadzone axis raw = 0 ∧ prev = 0) →
        apply_stick_filter axis raw st = (none, st))
      ∧ ((¬(post_deadzone axis raw ≠ 0 ∧ |post_deadzone axis raw - prev| < js_of axis)
          ∧ ¬(post_deadzone axis raw = 0 ∧ prev = 0)) →
        apply_stick_filter axis raw st
          = (some (post_deadzone axis raw), insertA st axis (post_deadzone axis raw))))
    ∧ (List.lookup axis st = none →
      apply_stick_filter axis raw st
        = (some (post_deadzone axis raw), insertA st axis (post_deadzone axis raw))) := by
  refine ⟨⟨fun h => by simp [post_deadzone, h], fun h => by simp [post_deadzone, h]⟩, ?_, ?_⟩
  · exact (stick_filter_cases axis raw st).1
  · exact (stick_filter_cases axis raw st).2

/-- Witness for C3 at concrete inputs: axis 0 (left profile, deadzone 3500,
jitter 300), raw 4000, empty prior state: accepted and stored. -/
theorem apply_stick_filter_spec_witness :
    post_deadzone 0 4000 = 4000
    ∧ apply_stick_filter 0 4000 [] = (some (post_deadzone 0 4000), insertA [] 0 (post_deadzone 0 4000)) :=
  ⟨(apply_stick_filter_spec 0 4000 []).1.2 (by decide),
   (apply_stick_filter_spec 0 4000 []).2.2 (by decide)⟩

/-- C8: feeding the same raw value to the Axis Filter twice in a row never
yields two accepted updates — the second call always suppresses. -/
theorem apply_stick_filter_idempotent (axis : Nat) (raw : Int) (st : List (Nat × Int)) :
    (apply_stick_filter axis raw (apply_stick_filter axis raw st).2).1 = none := by
  have hjs := js_of_pos axis
  have hcases := stick_filter_cases axis raw st
  -- After any accepting call the stored value is the post-deadzone value, so
  -- the repeat either hits the jitter test (|v - v| = 0 < js) or the
  -- zero-flap test (v = 0, prev = 0); after a suppressing call the state is
  -- unchanged and the repeat takes the same suppressing branch.
  have key : ∀ st' : List (Nat × Int),
      List.lookup axis st' = some (post_deadzone axis raw) →
      (apply_stick_filter axis raw st').1 = none := by
    intro st' hl
    rcases (stick_filter_cases axis raw st').1 _ hl with ⟨h1, h2, _⟩
    by_cases hz : post_deadzone axis raw = 0
    · rw [h2 ⟨hz, hz⟩]
    · rw [h1 ⟨hz, by simpa using hjs⟩]
  cases h : List.lookup axis st with
  | none =>
    rw [hcases.2 h]
    exact key _ (lookup_insertA st axis (post_deadzone axis raw))
  | some prev =>
    rcases hcases.1 _ h with ⟨h1, h2, h3⟩
    by_cases hc1 : post_deadzone axis raw ≠ 0 ∧ |post_deadzone axis raw - prev| < js_of axis
    · rw [h1 hc1]
      rcases (stick_filter_cases axis raw st).1 _ h with ⟨h1', _, _⟩
      rw [h1' hc1]
    · by_cases hc2 : post_deadzone axis raw = 0 ∧ prev = 0
      · rw [h2 hc2]
        rcases (stick_filter_cases axis raw st).1 _ h with ⟨_, h2', _⟩
        rw [h2' hc2]
      · rw [h3 ⟨hc1, hc2⟩]
        exact key _ (lookup_insertA st axis (post_deadzone axis raw))

/-- C10: a suppressed update leaves the filter state dict unchanged, and an
axis with no prior entry always accepts, storing the post-deadzone value. -/
theorem apply_stick_filter_state (axis : Nat) (raw : Int) (st : List (Nat × Int)) :
    ((apply_stick_filter axis raw st).1 = none → (apply_stick_filter axis raw st).2 = st)
    ∧ (List.lookup axis st = none →
        apply_stick_filter axis raw st
          = (some (post_deadzone axis raw), insertA st axis (post_deadzone axis raw))) := by
  have hcases := stick_filter_cases axis raw st
  refine ⟨fun hnone => ?_, hcases.2⟩
  cases h : List.lookup axis st with
  | none => rw [hcases.2 h] at hnone; simp at hnone
  | some prev =>
    rcases hcases.1 _ h with ⟨h1, h2, h3⟩
    by_cases hc1 : post_deadzone axis raw ≠ 0 ∧ |post_deadzone axis raw - prev| < js_of axis
    · rw [h1 hc1]
    · by_cases hc2 : post_deadzone axis raw = 0 ∧ prev = 0
      · rw [h2 hc2]
      · rw [h3 ⟨hc1, hc2⟩] at hnone; simp at hnone

/-- Witness for C10: axis 3 (right profile), raw 2100 against stored 2000 is a
jitter-suppressed update and leaves the dict unchanged; axis 3 with no entry
accepts. -/
theorem apply_stick_filter_state_witness :
    (apply_stick_filter 3 2100 [(3, 2000)]).2 = [(3, 2000)]
    ∧ apply_stick_filter 3 2100 [] = (some (post_deadzone 3 2100), insertA [] 3 (post_deadzone 3 2100)) :=
  ⟨(apply_stick_filter_state 3 2100 [(3, 2000)]).1 (by decide),
   (apply_stick_filter_state 3 2100 []).2 (by decide)⟩

theorem roundHalfEven_mono_32767 (a b : Nat) (h : a ≤ b) :
    roundHalfEven a 32767 ≤ roundHalfEven b 32767 := by
  simp only [roundHalfEven]
  split_ifs <;> omega

theorem roundHalfEven_le_1023 (num : Nat) (h : num ≤ 1023 * 32767) :
    roundHalfEven num 32767 ≤ 1023 := by
  simp only [roundHalfEven]
  split_ifs <;> omega

theorem centered_u16_to_trigger_le (v : Int) :
    centered_u16_to_trigger v R2_MAX ≤ 1023 := by
  simp only [centered_u16_to_trigger, R2_MAX]
  apply roundHalfEven_le_1023
  split_ifs <;> omega

/-- C2: the trigger decode is 0 below and at center, monotonic non-decreasing
above center, exactly `R2_MAX` at `0x8000 + 0x7FFF`, and clamped to
`[0, R2_MAX]` for every input (no wrap or overflow). -/
theorem centered_u16_to_trigger_props :
    (∀ v : Int, v < 0x8000 → centered_u16_to_trigger v R2_MAX = 0)
    ∧ (∀ v w : Int, 0x8000 ≤ v → v ≤ w →
        centered_u16_to_trigger v R2_MAX ≤ centered_u16_to_trigger w R2_MAX)
    ∧ centered_u16_to_trigger 0x8000 R2_MAX = 0
    ∧ centered_u16_to_trigger (0x8000 + 0x7FFF) R2_MAX = 1023
    ∧ (∀ v : Int, centered_u16_to_trigger v R2_MAX ≤ 1023) := by
  refine ⟨fun v hv => ?_, fun v w hv hvw => ?_, by decide, by decide, fun v => ?_⟩
  · simp only [centered_u16_to_trigger]
    rw [if_pos (show v - 0x8000 < 0 by omega)]
    norm_num [roundHalfEven, R2_MAX]
  · simp only [centered_u16_to_trigger, R2_MAX]
    apply roundHalfEven_mono_32767
    apply Nat.mul_le_mul_right
    apply Int.toNat_le_toNat
    split_ifs <;> omega
  · exact centered_u16_to_trigger_le v

/-- Witness for C2 at concrete inputs: below center, an ordered pair above
center, and a far out-of-range input. -/
theorem centered_u16_to_trigger_props_witness :
    centered_u16_to_trigger 0x7000 R2_MAX = 0
    ∧ centered_u16_to_trigger 0x9000 R2_MAX ≤ centered_u16_to_trigger 0xA000 R2_MAX
    ∧ centered_u16_to_trigger 0x7FFFFFFF R2_MAX ≤ 1023 :=
  ⟨centered_u16_to_trigger_props.1 0x7000 (by decide),
   centered_u16_to_trigger_props.2.1 0x9000 0xA000 (by decide) (by decide),
   centered_u16_to_trigger_props.2.2.2.2 0x7FFFFFFF⟩

/-- C6: the Report Decoder returns "not applicable" exactly for an empty
report, a too-short report, or a wrong leading type byte; otherwise it returns
the little-endian 16-bit value at byte offset 9. -/
theorem parse_report6_spec (report : List Nat) :
    (parse_report6 report = none ↔
      report = [] ∨ report.length < 14 ∨ report.headD 0 ≠ 0x06)
    ∧ (∀ v, parse_report6 report = some v →
        v = report.getD 9 0 + 256 * report.getD 10 0
        ∧ ((∀ b ∈ report, b < 256) → v < 65536)) := by
  constructor
  · cases report with
    | nil => simp [parse_report6]
    | cons b0 rest =>
      simp only [parse_report6, List.headD_cons]
      split_ifs with h1 h2 <;> simp_all
  · intro v hv
    cases report with
    | nil => simp [parse_report6] at hv
    | cons b0 rest =>
      simp only [parse_report6] at hv
      split_ifs at hv with h1 h2
      have hv' : v = (b0 :: rest).getD 9 0 + 256 * (b0 :: rest).getD 10 0 := by
        simpa using hv.symm
      refine ⟨hv', fun hb => ?_⟩
      have hlen : ¬ (b0 :: rest).length < 14 := h2
      have h9 : (b0 :: rest).getD 9 0 < 256 := by
        have : 9 < (b0 :: rest).length := by omega
        rw [List.getD_eq_getElem _ _ this]
        exact hb _ (List.getElem_mem this)
      have h10 : (b0 :: rest).getD 10 0 < 256 := by
        have : 10 < (b0 :: rest).length := by omega
        rw [List.getD_eq_getElem _ _ this]
        exact hb _ (List.getElem_mem this)
      omega

/-- Witness for C6: a valid 14-byte type-6 report with payload bytes 52, 18 at
offsets 9, 10 decodes to 52 + 256*18 = 4660. -/
theorem parse_report6_spec_witness :
    ((4660 : Nat) = ([6, 0, 0, 0, 0, 0, 0, 0, 0, 52, 18, 0, 0, 0] : List Nat).getD 9 0
        + 256 * ([6, 0, 0, 0, 0, 0, 0, 0, 0, 52, 18, 0, 0, 0] : List Nat).getD 10 0)
    ∧ (4660 : Nat) < 65536 := by
  have h := (parse_report6_spec [6, 0, 0, 0, 0, 0, 0, 0, 0, 52, 18, 0, 0, 0]).2 4660 (by decide)
  exact ⟨h.1, h.2 (by decide)⟩

theorem lookup_mem {k v : Nat} :
    ∀ {l : List (Nat × Nat)}, List.lookup k l = some v → (k, v) ∈ l := by
  intro l
  induction l with
  | nil => intro h; simp [List.lookup] at h
  | cons hd tl ih =>
    intro h
    obtain ⟨k', v'⟩ := hd
    simp only [List.lookup] at h
    cases hk : (k == k') with
    | true =>
      rw [hk] at h
      simp only [Option.some.injEq] at h
      subst h
      have : k = k' := by simpa using hk
      subst this
      exact List.mem_cons_self _ _
    | false =>
      rw [hk] at h
      exact List.mem_cons_of_mem _ (ih h)

/-- Every output code of the remap table is a virtual button. -/
theorem remap_into_virtual : ∀ p ∈ BUTTON_REMAP, p.2 ∈ VIRTUAL_BUTTONS := by decide

/-- C1 (amended): an input code in the remap table's domain produces exactly
one write with the mapped code and the event's value unmodified; an input code
absent from the table falls back to itself (`.get(ev.code, ev.code)`) and is
written unchanged iff it is itself in the virtual button set, otherwise
dropped. -/
theorem key_step_remap (code : Nat) (value : Int) :
    (∀ out, List.lookup code BUTTON_REMAP = some out →
      key_step code value = [SinkAct.write EV_KEY out value])
    ∧ (List.lookup code BUTTON_REMAP = none →
      key_step code value =
        if code ∈ VIRTUAL_BUTTONS then [SinkAct.write EV_KEY code value] else []) := by
  constructor
  · intro out h
    have hout : out ∈ VIRTUAL_BUTTONS := remap_into_virtual _ (lookup_mem h)
    unfold key_step
    rw [h]
    simp only [Option.getD_some]
    rw [if_pos hout]
  · intro h
    unfold key_step
    rw [h]
    simp only [Option.getD_none]

/-- Witness for C1: mapped code `BTN_C` (306) writes `BTN_WEST` (308) with the
event value; unmapped non-virtual code 999 is dropped. -/
theorem key_step_remap_witness :
    key_step BTN_C 5 = [SinkAct.write EV_KEY BTN_WEST 5] ∧ key_step 999 1 = [] := by
  refine ⟨(key_step_remap BTN_C 5).1 BTN_WEST (by decide), ?_⟩
  have h := (key_step_remap 999 1).2 (by decide)
  rw [if_neg (by decide)] at h
  exact h

/-- C1 counterexample: `BTN_SELECT` (314) is absent from the remap table's
domain, yet an event with that code produces a (fallback) write, refuting
"absent from the table ⇒ zero output writes". -/
theorem key_step_unmapped_write_cex :
    List.lookup BTN_SELECT BUTTON_REMAP = none ∧ key_step BTN_SELECT 1 ≠ [] := by
  decide

/-- Characterization of the write list produced by one `apply_dpad` call. -/
theorem apply_dpad_mem (hx hy : Int) (last : DpadLast) (a : SinkAct) :
    a ∈ (apply_dpad hx hy last).2 ↔
      (a = SinkAct.write EV_KEY BTN_DPAD_LEFT (dpad_derive hx hy).left
        ∧ last.left ≠ (dpad_derive hx hy).left)
      ∨ (a = SinkAct.write EV_KEY BTN_DPAD_RIGHT (dpad_derive hx hy).right
        ∧ last.right ≠ (dpad_derive hx hy).right)
      ∨ (a = SinkAct.write EV_KEY BTN_DPAD_UP (dpad_derive hx hy).up
        ∧ last.up ≠ (dpad_derive hx hy).up)
      ∨ (a = SinkAct.write EV_KEY BTN_DPAD_DOWN (dpad_derive hx hy).down
        ∧ last.down ≠ (dpad_derive hx hy).down) := by
  simp only [apply_dpad, List.mem_append, mem_ite_singleton]
  tauto

/-- C5: the D-Pad Synthesizer derives left/right from the sign of the
horizontal hat and up/down from the sign of the vertical hat, keeps exactly
the derived state as the new last-sent state, writes exactly those direction
buttons whose derived state differs from the last-sent state (each at most
once), and on the update sequence (0,0)→(−1,0)→(−1,0)→(0,0) from rest emits
exactly the two writes left=on then left=off. -/
theorem apply_dpad_spec :
    (∀ hx hy : Int, ∀ last : DpadLast,
      ((dpad_derive hx hy).left = 1 ↔ hx = -1)
      ∧ ((dpad_derive hx hy).right = 1 ↔ hx = 1)
      ∧ ((dpad_derive hx hy).up = 1 ↔ hy = -1)
      ∧ ((dpad_derive hx hy).down = 1 ↔ hy = 1)
      ∧ (apply_dpad hx hy last).1 = dpad_derive hx hy
      ∧ (∀ a : SinkAct, a ∈ (apply_dpad hx hy last).2 ↔
          (a = SinkAct.write EV_KEY BTN_DPAD_LEFT (dpad_derive hx hy).left
            ∧ last.left ≠ (dpad_derive hx hy).left)
          ∨ (a = SinkAct.write EV_KEY BTN_DPAD_RIGHT (dpad_derive hx hy).right
            ∧ last.right ≠ (dpad_derive hx hy).right)
          ∨ (a = SinkAct.write EV_KEY BTN_DPAD_UP (dpad_derive hx hy).up
            ∧ last.up ≠ (dpad_derive hx hy).up)
          ∨ (a = SinkAct.write EV_KEY BTN_DPAD_DOWN (dpad_derive hx hy).down
            ∧ last.down ≠ (dpad_derive hx hy).down))
      ∧ (apply_dpad hx hy last).2.Nodup)
    ∧ run_hats [(0, 0), (-1, 0), (-1, 0), (0, 0)] ⟨0, 0, 0, 0⟩
        = (⟨0, 0, 0, 0⟩,
           [SinkAct.write EV_KEY BTN_DPAD_LEFT 1, SinkAct.write EV_KEY BTN_DPAD_LEFT 0]) := by
  refine ⟨fun hx hy last => ⟨?_, ?_, ?_, ?_, rfl, apply_dpad_mem hx hy last, ?_⟩, by decide⟩
  · simp only [dpad_derive]; split_ifs <;> simp_all
  · simp only [dpad_derive]; split_ifs <;> simp_all
  · simp only [dpad_derive]; split_ifs <;> simp_all
  · simp only [dpad_derive]; split_ifs <;> simp_all
  · simp only [apply_dpad]
    split_ifs <;>
      simp_all [BTN_DPAD_LEFT, BTN_DPAD_RIGHT, BTN_DPAD_UP, BTN_DPAD_DOWN]

/-- C4: on the binary-report transport, a right-trigger write immediately
followed by a frame commit happens iff the report decodes to a value that
differs from the last-emitted right-trigger value; an undecodable report — in
particular one whose leading type byte is wrong — leaves the trigger state
unchanged and causes no sink action, and a decoded value equal to the
last-emitted one causes neither write nor commit. -/
theorem hidraw_step_spec (data : List Nat) (lr : Nat) :
    (∀ raw, parse_report6 data = some raw →
      (centered_u16_to_trigger (raw : Int) R2_MAX ≠ lr →
        hidraw_step data lr
          = (centered_u16_to_trigger (raw : Int) R2_MAX,
             [SinkAct.write EV_ABS ABS_RZ ((centered_u16_to_trigger (raw : Int) R2_MAX : Int)),
              SinkAct.syn]))
      ∧ (centered_u16_to_trigger (raw : Int) R2_MAX = lr →
        hidraw_step data lr = (lr, [])))
    ∧ (parse_report6 data = none → hidraw_step data lr = (lr, []))
    ∧ (∀ b0 rest, data = b0 :: rest → b0 ≠ 0x06 → hidraw_step data lr = (lr, [])) := by
  refine ⟨fun raw hr => ⟨fun hne => ?_, fun heq => ?_⟩, fun hn => ?_,
    fun b0 rest hdata hb0 => ?_⟩
  · simp [hidraw_step, hr, hne]
  · simp [hidraw_step, hr, heq]
  · simp [hidraw_step, hn]
  · have hn : parse_report6 data = none := by subst hdata; simp [parse_report6, hb0]
    simp [hidraw_step, hn]

/-- Witness for C4: a full-scale type-6 report (raw 0xFFFF) against last value
0 produces the write-and-commit pair; the same payload with type byte 5 is
ignored. -/
theorem hidraw_step_spec_witness :
    hidraw_step [6, 0, 0, 0, 0, 0, 0, 0, 0, 255, 255, 0, 0, 0] 0
      = (centered_u16_to_trigger ((65535 : Nat) : Int) R2_MAX,
         [SinkAct.write EV_ABS ABS_RZ ((centered_u16_to_trigger ((65535 : Nat) : Int) R2_MAX : Int)),
          SinkAct.syn])
    ∧ hidraw_step [5, 0, 0, 0, 0, 0, 0, 0, 0, 255, 255, 0, 0, 0] 0 = (0, []) :=
  ⟨((hidraw_step_spec [6, 0, 0, 0, 0, 0, 0, 0, 0, 255, 255, 0, 0, 0] 0).1 65535
      (by decide)).1 (by decide),
   (hidraw_step_spec [5, 0, 0, 0, 0, 0, 0, 0, 0, 255, 255, 0, 0, 0] 0).2.2 5 _ rfl (by decide)⟩

/-- An accepted filter value is either the forced zero or the raw input. -/
theorem stick_filter_accept_val (axis : Nat) (raw : Int) (st : List (Nat × Int)) (f : Int)
    (hf : (apply_stick_filter axis raw st).1 = some f) : f = 0 ∨ f = raw := by
  have hpd : post_deadzone axis raw = 0 ∨ post_deadzone axis raw = raw := by
    unfold post_deadzone; split_ifs <;> simp
  suffices h : f = post_deadzone axis raw by rw [h]; exact hpd
  cases h : List.lookup axis st with
  | none =>
    simp only [apply_stick_filter, h] at hf
    simpa using hf.symm
  | some prev =>
    simp only [apply_stick_filter, h] at hf
    split_ifs at hf
    all_goals simp_all

/-- All d-pad synthesizer output is `EV_KEY` writes, hence trivially within
the analog-channel discipline. -/
theorem apply_dpad_write_ok (hx hy : Int) (last : DpadLast) :
    ∀ a ∈ (apply_dpad hx hy last).2, abs_write_ok a := by
  intro a ha
  rcases (apply_dpad_mem hx hy last a).1 ha with ⟨rfl, -⟩ | ⟨rfl, -⟩ | ⟨rfl, -⟩ | ⟨rfl, -⟩
  all_goals simp [abs_write_ok, EV_KEY, EV_ABS]

/-- Button dispatch emits only `EV_KEY` writes. -/
theorem key_step_write_ok (code : Nat) (value : Int) :
    ∀ a ∈ key_step code value, abs_write_ok a := by
  intro a ha
  simp only [key_step] at ha
  split_ifs at ha with h
  · simp only [List.mem_singleton] at ha
    subst ha
    simp [abs_write_ok, EV_KEY, EV_ABS]
  · simp at ha

/-- C7: assuming input events stay within the source device's declared ranges,
every `EV_ABS` write issued by either transport handler targets a stick axis
with a value in [-32768, 32767] or a trigger axis with a value in [0, 1023];
no hat-axis write is ever issued. -/
theorem abs_writes_in_range (s : LoopState) (ev : Ev) (data : List Nat) (lr : Nat)
    (hev : in_range_ev ev) :
    (∀ a ∈ (process_event ev s).2, abs_write_ok a)
    ∧ (∀ a ∈ (hidraw_step data lr).2, abs_write_ok a) := by
  constructor
  · intro a ha
    simp only [process_event] at ha
    split_ifs at ha with h1 h2 h3 h4 h5 h6 h7 h8 h9 h10
    · -- EV_KEY events go through key_step
      simp only at ha
      exact key_step_write_ok ev.code ev.value a ha
    · -- ABS_X / ABS_Y through the left-stick filter
      have hr : -32768 ≤ ev.value ∧ ev.value ≤ 32767 := by
        refine (hev h2).1 ?_
        rcases h3 with h | h
        · exact Or.inl h
        · exact Or.inr (Or.inl h)
      rcases hp : (apply_stick_filter ev.code ev.value s.last_stick).1 with _ | f
      · simp [hp] at ha
      · simp [hp] at ha
        subst ha
        have hf := stick_filter_accept_val _ _ _ _ hp
        simp only [abs_write_ok]
        intro
        left
        constructor
        · rcases h3 with h | h
          · exact Or.inl h
          · exact Or.inr (Or.inl h)
        · rcases hf with rfl | rfl
          · norm_num
          · exact hr
    · -- ABS_RX (left trigger passthrough, value changed)
      simp only at ha
      simp at ha
      subst ha
      have hr := (hev h2).2 h4
      simp only [abs_write_ok]
      intro
      right
      exact ⟨by tauto, hr.1, hr.2⟩
    · simp at ha
    · -- ABS_Z → right stick X through the right-stick filter
      have hr : -32768 ≤ ev.value ∧ ev.value ≤ 32767 :=
        (hev h2).1 (Or.inr (Or.inr (Or.inl h6)))
      rcases hp : (apply_stick_filter ABS_RX ev.value s.last_stick).1 with _ | f
      · simp [hp] at ha
      · simp [hp] at ha
        subst ha
        have hf := stick_filter_accept_val _ _ _ _ hp
        simp only [abs_write_ok]
        intro
        left
        refine ⟨by tauto, ?_⟩
        rcases hf with rfl | rfl
        · norm_num
        · exact hr
    · -- ABS_RZ → right stick Y through the right-stick filter
      have hr : -32768 ≤ ev.value ∧ ev.value ≤ 32767 :=
        (hev h2).1 (Or.inr (Or.inr (Or.inr h7)))
      rcases hp : (apply_stick_filter ABS_RY ev.value s.last_stick).1 with _ | f
      · simp [hp] at ha
      · simp [hp] at ha
        subst ha
        have hf := stick_filter_accept_val _ _ _ _ hp
        simp only [abs_write_ok]
        intro
        left
        refine ⟨by tauto, ?_⟩
        rcases hf with rfl | rfl
        · norm_num
        · exact hr
    · simp at ha
    · -- ABS_HAT0X updates go to the d-pad synthesizer (EV_KEY writes only)
      simp only at ha
      exact apply_dpad_write_ok _ _ _ a ha
    · -- ABS_HAT0Y likewise
      simp only at ha
      exact apply_dpad_write_ok _ _ _ a ha
    · simp at ha
    · simp at ha
  · intro a ha
    rcases hp : parse_report6 data with _ | raw
    · simp [hidraw_step, hp] at ha
    · simp only [hidraw_step, hp] at ha
      split_ifs at ha with h
      · simp only at ha
        have hle := centered_u16_to_trigger_le (raw : Int)
        simp only [List.mem_cons, List.not_mem_nil, or_false] at ha
        rcases ha with rfl | rfl
        · simp only [abs_write_ok]
          intro
          right
          refine ⟨by tauto, by positivity, ?_⟩
          exact_mod_cast hle
        · simp [abs_write_ok]
      · simp at ha

/-- The d-pad synthesizer never emits a frame commit. -/
theorem apply_dpad_no_syn (hx hy : Int) (last : DpadLast) :
    SinkAct.syn ∉ (apply_dpad hx hy last).2 := by
  intro ha
  rcases (apply_dpad_mem hx hy last SinkAct.syn).1 ha with ⟨h, -⟩ | ⟨h, -⟩ | ⟨h, -⟩ | ⟨h, -⟩
  all_goals exact SinkAct.noConfusion h

/-- Processing a single evdev event queues writes only, never a commit. -/
theorem process_event_no_syn (ev : Ev) (s : LoopState) :
    SinkAct.syn ∉ (process_event ev s).2 := by
  intro ha
  simp only [process_event] at ha
  split_ifs at ha with h1 h2 h3 h4 h5 h6 h7 h8 h9 h10
  · simp only at ha
    simp only [key_step] at ha
    split_ifs at ha with h
    · simp at ha
    · simp at ha
  · rcases hp : (apply_stick_filter ev.code ev.value s.last_stick).1 with _ | f <;>
      simp [hp] at ha
  · simp at ha
  · simp at ha
  · rcases hp : (apply_stick_filter ABS_RX ev.value s.last_stick).1 with _ | f <;>
      simp [hp] at ha
  · rcases hp : (apply_stick_filter ABS_RY ev.value s.last_stick).1 with _ | f <;>
      simp [hp] at ha
  · simp at ha
  · simp only at ha
    exact apply_dpad_no_syn _ _ _ ha
  · simp only at ha
    exact apply_dpad_no_syn _ _ _ ha
  · simp at ha
  · simp at ha

/-- A whole evdev batch queues writes only, never a commit. -/
theorem process_batch_no_syn (evs : List Ev) :
    ∀ s : LoopState, SinkAct.syn ∉ (process_batch evs s).2 := by
  induction evs with
  | nil => intro s; simp [process_batch]
  | cons ev rest ih =>
    intro s
    simp only [process_batch, List.mem_append]
    rintro (h | h)
    · exact process_event_no_syn ev s h
    · exact ih _ h

/-- C9: for every batch of events from one evdev wakeup, exactly one frame
commit is issued, and it comes after all writes of the batch. -/
theorem evdev_step_single_commit (evs : List Ev) (s : LoopState) :
    (evdev_step evs s).2.count SinkAct.syn = 1
    ∧ (evdev_step evs s).2.getLast? = some SinkAct.syn := by
  constructor
  · simp only [evdev_step]
    rw [List.count_append, List.count_eq_zero.mpr (process_batch_no_syn evs s)]
    simp
  · simp only [evdev_step]
    exact List.getLast?_concat _

/-- Witness for C7: an in-range `ABS_X` event from the initial state, and a
full-scale right-trigger report against last value 0. -/
theorem abs_writes_in_range_witness :
    (∀ a ∈ (process_event ⟨3, 0, 5000⟩ initState).2, abs_write_ok a)
    ∧ (∀ a ∈ (hidraw_step [6, 0, 0, 0, 0, 0, 0, 0, 0, 255, 255, 0, 0, 0] 0).2, abs_write_ok a) :=
  abs_writes_in_range initState ⟨3, 0, 5000⟩ [6, 0, 0, 0, 0, 0, 0, 0, 0, 255, 255, 0, 0, 0] 0
    (by intro h; exact ⟨fun hc => by norm_num, fun hc => absurd hc (by decide)⟩)
